import Mathlib

/-!
Verification development for the `electron-notify` notification scheduler
(`src/index.js`).  The JavaScript source is shallowly embedded below:

* `AQState` / `aqPush` / `aqComplete` / `aqFault` / `aqClear` embed the
  `AnimationQueue` prototype (lines 8-43): `queue` and `running` are the
  object's fields; `inFlight`, `started`, `submitted`, `inFlightCount` and
  `logged` are ghost fields recording which task the current promise chain is
  executing, the order in which task bodies were invoked by `animate`, the
  order of `push` calls, the number of task bodies currently executing, and
  the number of `console.error` calls made by the `.catch` handler.
* `Config` / `calcDimensions` / `setupConfig` / `setConfig` embed the global
  `config` object and its derivation functions (lines 45-124).  Numbers that
  the code uses as integers are modelled as `Int`/`Nat`; `animationSpeed` and
  `animationFps` enter real-valued arithmetic and are modelled as `ℚ`
  (the source values are small integers, so rational arithmetic is exact).
* `SysState` embeds the module-level mutable state (`activeNotifications`,
  `notificationQueue`, `animationQueue`, `nextInsertPos`, `latestID`) together
  with ghost counters.  `notify`, `showNotification`,
  `checkForQueuedNotifications`, `moveOneDown`, `calcInsertPos` (inlined at
  its only call site inside `showNotification`, where its guard is implied),
  `onWindowClosed` (the `'closed'` listener installed at lines 163-170) and
  `closeAll` embed the corresponding functions.  Window handles are reduced to
  their BrowserWindow ids plus the vertical coordinate the claims are about;
  rendering, IPC payload delivery and focus handling are effect-free for the
  stated properties and are elided.  `showNotification` returns the successor
  state together with a flag recording whether its body ran to completion:
  positioning reads `nextInsertPos`, whose `x` coordinate `closeAll` sets to
  `null` and `calcInsertPos` does *not* restore (it only recomputes `y`), so
  the first show task after `closeAll` calls `setPosition(null, y)`, which
  throws before the window is added to the active set — the task's promise
  rejects and the serializer takes its fault path.
* `CloseState` / `closeNotification` embed `buildCloseNotification`
  (lines 215-238): the closure produced by the source function, applied to a
  window-registry state (`live` models which ids `BrowserWindow.fromId`
  resolves, `withCloseFunc` which windows carry `electronNotifyOnCloseFunc`,
  `fired` the arguments passed to those callbacks).
* `animStepY` embeds one iteration of the `next` stepper inside
  `moveNotificationAnimation` (lines 313-328), and `moveFinalY` the position
  at which that stepper finally leaves a window (the guard
  `!isFinite(timeDelta) || timeDelta === 0` skips the animation; a negative
  `timeDelta` never reaches 100% and never moves the window; a positive one
  ends with `percents = 100`, landing exactly on `newPosY`, see
  `animStepY_settles`).
-/

namespace ENotify

/-! ### AnimationQueue (src/index.js lines 8-43) -/

/-- State of one `AnimationQueue` object.  `queue` and `running` are the
fields of the JS object; the remaining fields are ghost observations of the
promise chain built by `animate`. -/
structure AQState (τ : Type) where
  queue : List τ
  running : Bool
  inFlight : Option τ
  started : List τ
  submitted : List τ
  inFlightCount : Nat
  logged : Nat
  deriving Repr, DecidableEq

/-- `new AnimationQueue()`: empty queue, not running. -/
def aqInit {τ : Type} : AQState τ :=
  { queue := [], running := false, inFlight := none, started := [],
    submitted := [], inFlightCount := 0, logged := 0 }

/-- `AnimationQueue.prototype.push`: if `running`, append the task object to
`queue`; otherwise set `running = true` and hand the task to `animate`, which
begins executing its body. -/
def aqPush {τ : Type} (s : AQState τ) (t : τ) : AQState τ :=
  if s.running then
    { s with queue := s.queue ++ [t], submitted := s.submitted ++ [t] }
  else
    { s with running := true, inFlight := some t,
             started := s.started ++ [t], submitted := s.submitted ++ [t],
             inFlightCount := s.inFlightCount + 1 }

/-- The fulfilled continuation of `animate`: the in-flight task's promise
resolved, so either the next queued task is shifted and started, or
`running` is reset to `false`. -/
def aqComplete {τ : Type} (s : AQState τ) : AQState τ :=
  match s.inFlight with
  | none => s
  | some _ =>
    match s.queue with
    | [] => { s with running := false, inFlight := none,
                     inFlightCount := s.inFlightCount - 1 }
    | t :: rest => { s with queue := rest, inFlight := some t,
                            started := s.started ++ [t] }

/-- The `.catch` handler of `animate`: the in-flight task threw or rejected.
The rejection skips the fulfilled continuation, so neither the shift of the
next task nor the reset of `running` happens; the handler only calls
`console.error` (modelled by the `logged` counter). -/
def aqFault {τ : Type} (s : AQState τ) : AQState τ :=
  match s.inFlight with
  | none => s
  | some _ => { s with inFlight := none,
                       inFlightCount := s.inFlightCount - 1,
                       logged := s.logged + 1 }

/-- `AnimationQueue.prototype.clear`: `this.queue.splice(0)` drops all queued
but not-yet-started tasks; `running` and the in-flight chain are untouched. -/
def aqClear {τ : Type} (s : AQState τ) : AQState τ :=
  { s with queue := [] }

/-- Externally observable events of one `AnimationQueue`. -/
inductive AQEvent (τ : Type) where
  | push (t : τ)
  | complete
  | fault
  deriving Repr, DecidableEq

/-- Dispatch one event to the queue state. -/
def aqStep {τ : Type} (s : AQState τ) : AQEvent τ → AQState τ
  | .push t => aqPush s t
  | .complete => aqComplete s
  | .fault => aqFault s

/-- Run an event trace against a freshly constructed `AnimationQueue`. -/
def aqRun (es : List (AQEvent Nat)) : AQState Nat :=
  es.foldl aqStep aqInit

/-- Reachable-state invariant of the `AnimationQueue`: submissions split into
the started prefix followed by the waiting queue (FIFO); the number of task
bodies executing matches the in-flight slot; a task only executes while
`running`; when not `running` the queue is empty. -/
def AQInv {τ : Type} (s : AQState τ) : Prop :=
  s.submitted = s.started ++ s.queue ∧
  s.inFlightCount = (if s.inFlight.isSome then 1 else 0) ∧
  (s.inFlight.isSome → s.running = true) ∧
  (s.running = false → s.queue = [])

/-! ### Configuration and geometry (src/index.js lines 45-124) -/

/-- The global `config` object, restricted to the fields the scheduler reads,
together with the fields `calcDimensions`/`setupConfig` assign onto it. -/
structure Config where
  width : Int
  height : Int
  padding : Int
  displayTime : Nat
  animationSpeed : ℚ
  animationFps : ℚ
  lowerRightCornerX : Int
  lowerRightCornerY : Int
  totalWidth : Int
  totalHeight : Int
  firstPosX : Int
  firstPosY : Int
  maxVisibleNotifications : Nat
  deriving Repr, DecidableEq

/-- Primary-display metrics used by `setupConfig`
(`display.bounds`, `display.workArea`, `display.workAreaSize`). -/
structure Display where
  boundsX : Int
  boundsY : Int
  workAreaX : Int
  workAreaY : Int
  workAreaWidth : Int
  workAreaHeight : Int
  deriving Repr, DecidableEq

/-- `calcDimensions` (lines 91-105): derives `totalHeight`, `totalWidth` and
`firstPos` from the current `config`.  The function also copies `firstPos`
into the module-level `nextInsertPos`; that assignment is reflected in
`initSys` below. -/
def calcDimensions (cfg : Config) : Config :=
  { cfg with
    totalHeight := cfg.height + cfg.padding,
    totalWidth := cfg.width + cfg.padding,
    firstPosX := cfg.lowerRightCornerX - (cfg.width + cfg.padding),
    firstPosY := cfg.lowerRightCornerY - (cfg.height + cfg.padding) }

/-- `setupConfig` (lines 107-122): computes the lower-right corner from the
primary display, re-runs `calcDimensions`, then derives
`maxVisibleNotifications = Math.floor(workAreaSize.height / totalHeight)`
clamped to at most 7.  `Math.floor` of the real-valued quotient is `Int.fdiv`
(the model is faithful for `0 < totalHeight`; JavaScript division by zero
would produce `Infinity` instead). -/
def setupConfig (d : Display) (cfg : Config) : Config :=
  let cfg1 := { cfg with
    lowerRightCornerX := d.boundsX + d.workAreaX + d.workAreaWidth,
    lowerRightCornerY := d.boundsY + d.workAreaY + d.workAreaHeight }
  let cfg2 := calcDimensions cfg1
  let m := Int.fdiv d.workAreaHeight cfg2.totalHeight
  { cfg2 with maxVisibleNotifications := if 7 < m then 7 else m.toNat }

/-- An argument to `setConfig`: the recognized option keys, each optionally
present (`Object.assign` only overwrites keys the caller supplies). -/
structure CustomConfig where
  width : Option Int
  height : Option Int
  padding : Option Int
  displayTime : Option Nat
  animationSpeed : Option ℚ
  animationFps : Option ℚ
  deriving Repr, DecidableEq

/-- The `Object.assign(config, customConfig)` merge. -/
def mergeConfig (cfg : Config) (c : CustomConfig) : Config :=
  { cfg with
    width := c.width.getD cfg.width,
    height := c.height.getD cfg.height,
    padding := c.padding.getD cfg.padding,
    displayTime := c.displayTime.getD cfg.displayTime,
    animationSpeed := c.animationSpeed.getD cfg.animationSpeed,
    animationFps := c.animationFps.getD cfg.animationFps }

/-- `setConfig` (lines 71-77): merges the custom options and re-runs
`calcDimensions`.  (The `templatePath` defaulting concerns only the rendered
markup and is elided.)  Note that `setupConfig` is *not* re-invoked. -/
def setConfig (c : CustomConfig) (cfg : Config) : Config :=
  calcDimensions (mergeConfig cfg c)

/-- The configuration invariant stated by the specification:
`totalHeight = height + padding` and
`maxVisibleNotifications = floor(displayWorkAreaHeight / totalHeight)`
clamped to at most 7.  (Stated in the spec's words, for comparison with what
the code maintains.) -/
def configInvariant (d : Display) (cfg : Config) : Prop :=
  cfg.totalHeight = cfg.height + cfg.padding ∧
  cfg.maxVisibleNotifications = min (Int.fdiv d.workAreaHeight cfg.totalHeight).toNat 7

/-- Slot coordinate used throughout the source:
`config.lowerRightCorner.y - config.totalHeight * (i + 1)` is the vertical
coordinate of the i-th slot (both in `calcInsertPos` with `i = length` and in
`moveNotificationAnimation` for index `i`). -/
def targetY (cfg : Config) (i : Nat) : Int :=
  cfg.lowerRightCornerY - cfg.totalHeight * ((i : Int) + 1)

/-! ### Notifications, windows, and the module-level state -/

/-- A notification payload, restricted to the fields the scheduler itself
reads: the id assigned by `notify` and the optional per-call `displayTime`.
`some 0` models a caller passing the number `0` (present but falsy in JS). -/
structure Notif where
  id : Nat
  displayTime : Option Nat
  deriving Repr, DecidableEq

/-- An entry of `activeNotifications`: the BrowserWindow, reduced to its id
and the vertical coordinate of its current (settled) position. -/
structure Win where
  id : Nat
  y : Int
  deriving Repr, DecidableEq

/-- Line 173: `notificationObj.displayTime ? notificationObj.displayTime :
config.displayTime` — a truthiness test, so an explicit `0` falls back to the
config default. -/
def displayTimeOf (n : Notif) (cfg : Config) : Nat :=
  match n.displayTime with
  | none => cfg.displayTime
  | some d => if d = 0 then cfg.displayTime else d

/-- The dismiss duration as the specification words it: the payload's own
duration when present, else the config default. -/
def displayTimeClaimed (n : Notif) (cfg : Config) : Nat :=
  match n.displayTime with
  | none => cfg.displayTime
  | some d => d

/-- The module-level mutable state of `src/index.js`: the configuration, the
`nextInsertPos` record (`none` models `null`), `activeNotifications`,
`notificationQueue`, the `animationQueue` object, and `latestID`.
`windowsCreated` counts `new BrowserWindow` calls (and doubles as the fresh
window-id supply), `timers` records the `(window id, duration)` of each
dismiss timer armed by `setTimeout`, and `returnedIds` the values returned by
`notify` — all three are ghost observations. -/
structure SysState where
  config : Config
  nextInsertPosX : Option Int
  nextInsertPosY : Option Int
  activeNotifications : List Win
  notificationQueue : List Notif
  aq : AQState Notif
  latestID : Nat
  windowsCreated : Nat
  timers : List (Nat × Nat)
  returnedIds : List Nat
  deriving Repr, DecidableEq

/-- The module-level state right after load: `setupConfig()` has run (its
result is the `cfg` argument), `calcDimensions` has copied `firstPos` into
`nextInsertPos`, the arrays are empty and `latestID = 1`. -/
def initSys (cfg : Config) : SysState :=
  { config := cfg,
    nextInsertPosX := some cfg.firstPosX,
    nextInsertPosY := some cfg.firstPosY,
    activeNotifications := [],
    notificationQueue := [],
    aq := aqInit,
    latestID := 1,
    windowsCreated := 0,
    timers := [],
    returnedIds := [] }

/-- `notify` (lines 142-149): `notification.id = latestID++`, push a
`showNotification` task onto the animation queue, and return the id at once
(the task body runs later, on a microtask). -/
def notify (st : SysState) (n : Notif) : Nat × SysState :=
  let nid := st.latestID
  let n1 := { n with id := nid }
  (nid,
   { st with
     latestID := st.latestID + 1,
     aq := aqPush st.aq n1,
     returnedIds := st.returnedIds ++ [nid] })

/-- `showNotification` (lines 151-212), executed as an animation-queue task.
The returned flag records whether the body ran to completion (`true`) or
threw (`false`).  If the active set is below the cap: a fresh BrowserWindow
is created (`getWindow`), `calcInsertPos` updates `nextInsertPos.y` (its
`length < max` guard is implied here), then
`setPosition(nextInsertPos.x, nextInsertPos.y)` runs.  When `nextInsertPos.x`
is `null` (as `closeAll` leaves it — `calcInsertPos` restores only `y`),
`setPosition` throws: the window was created and `nextInsertPos.y` updated,
but nothing is appended to `activeNotifications`, no timer is armed, and the
task's promise rejects.  Otherwise the window is positioned, appended to
`activeNotifications`, and a dismiss timer of `displayTimeOf` is armed.
If the active set is at the cap, the payload is appended to
`notificationQueue` and no window is created.  Callback wiring, content
delivery and `showInactive` have no effect on the modelled state. -/
def showNotification (st : SysState) (n : Notif) : SysState × Bool :=
  if st.activeNotifications.length < st.config.maxVisibleNotifications then
    let insY : Int :=
      st.config.lowerRightCornerY -
        st.config.totalHeight * ((st.activeNotifications.length : Int) + 1)
    let wid : Nat := st.windowsCreated + 1
    match st.nextInsertPosX with
    | none =>
      ({ st with windowsCreated := wid, nextInsertPosY := some insY }, false)
    | some _ =>
      ({ st with
         windowsCreated := wid,
         nextInsertPosY := some insY,
         activeNotifications := st.activeNotifications ++ [{ id := wid, y := insY }],
         timers := st.timers ++ [(wid, displayTimeOf n st.config)] }, true)
  else
    ({ st with notificationQueue := st.notificationQueue ++ [n] }, true)

/-- `checkForQueuedNotifications` (lines 264-273): if the pending queue is
non-empty and a slot is free, shift its head and push a `showNotification`
task for it. -/
def checkForQueuedNotifications (st : SysState) : SysState :=
  match st.notificationQueue with
  | [] => st
  | n :: rest =>
    if st.activeNotifications.length < st.config.maxVisibleNotifications then
      { st with notificationQueue := rest, aq := aqPush st.aq n }
    else st

/-- The settled vertical position a window ends at after
`moveNotificationAnimation(winId, i)` (lines 299-330), assuming the window
stays live.  `timeDelta = delta / animationSpeed * 1000`; the source skips the
animation when `timeDelta` is non-finite or zero, a negative `timeDelta`
never reaches `percents = 100` and never moves the window (`Math.trunc` of a
negative `deltaPosY` fails the `> 0` test), and a positive `timeDelta` ends
with `percents` clamped to 100, landing exactly on `newPosY`
(see `animStepY_settles`). -/
def moveFinalY (cfg : Config) (posY : Int) (i : Nat) : Int :=
  let newPosY := targetY cfg i
  let delta := max newPosY posY - min newPosY posY
  let timeDelta : ℚ := (delta : ℚ) / cfg.animationSpeed * 1000
  if 0 < timeDelta then newPosY else posY

/-- The guard of `moveOneDown` (line 282):
`startPos >= activeNotifications || startPos === -1`.  The first comparison
coerces the *array* to a number: the empty array becomes `0`, while a
non-empty array of window objects becomes `NaN` and every `>=` comparison
with `NaN` is false. -/
def moveOneDownGuard (startPos : Int) (activeLen : Nat) : Bool :=
  (decide (activeLen = 0) && decide (0 ≤ startPos)) || decide (startPos = -1)

/-- The `for` loop of `moveOneDown` (lines 286-296), traversing
`activeNotifications` with absolute index `i`: every window at index
`startPos ≤ i` is handed to `moveNotificationAnimation(winId, i)` and settles
at `moveFinalY`; windows below `startPos` are not visited.  (For a negative
`startPos` the JS loop body throws on the missing array element, the `catch`
leaves `winId` null and the iteration is skipped, so the behaviour matches
visiting indices from 0.) -/
def moveWins (cfg : Config) (startPos : Int) : Nat → List Win → List Win
  | _, [] => []
  | i, w :: ws =>
    (if startPos ≤ (i : Int) then { w with y := moveFinalY cfg w.y i } else w) ::
      moveWins cfg startPos (i + 1) ws

/-- `moveOneDown` (lines 281-297). -/
def moveOneDown (st : SysState) (startPos : Int) : SysState :=
  if moveOneDownGuard startPos st.activeNotifications.length then st
  else { st with activeNotifications := moveWins st.config startPos 0 st.activeNotifications }

/-- The `'closed'` listener installed on each notification window
(lines 163-170): look the window up in `activeNotifications`; if present,
splice it out, run `checkForQueuedNotifications`, then `moveOneDown(pos)`. -/
def onWindowClosed (st : SysState) (wid : Nat) : SysState :=
  match st.activeNotifications.findIdx? (fun w => w.id == wid) with
  | none => st
  | some pos =>
    let st1 := { st with activeNotifications := st.activeNotifications.eraseIdx pos }
    let st2 := checkForQueuedNotifications st1
    moveOneDown st2 (pos : Int)

/-- The in-flight animation-queue task executes: its body
(`showNotification`) runs; if it completes, its promise resolves and the
queue's fulfilled continuation (`aqComplete`) follows, and if it throws, the
promise rejects and the queue's `.catch` handler (`aqFault`) follows. -/
def runShowTask (st : SysState) : SysState :=
  match st.aq.inFlight with
  | none => st
  | some n =>
    let r := showNotification st n
    if r.2 then { r.1 with aq := aqComplete r.1.aq }
    else { r.1 with aq := aqFault r.1.aq }

/-- `closeAll` (lines 370-380): clear the animation queue's pending tasks,
call `window.close()` on every active window, reset `nextInsertPos` to
`null`, and splice `activeNotifications`.  The windows' `'closed'` events are
delivered afterwards as separate `SysEvent.windowClosed` events; by then the
array is empty, so their handlers find `indexOf === -1` and do nothing.
`notificationQueue` is not touched. -/
def closeAll (st : SysState) : SysState :=
  { st with
    aq := aqClear st.aq,
    nextInsertPosX := none,
    nextInsertPosY := none,
    activeNotifications := [] }

/-- The interleaved events the single-threaded event loop can deliver to the
module: an API `notify` call, the in-flight show task running to completion,
the in-flight show task faulting (its promise rejecting before any state
effect), a window's `'closed'` event, and an API `closeAll` call. -/
inductive SysEvent where
  | notifyCall (n : Notif)
  | runShow
  | taskFault
  | windowClosed (wid : Nat)
  | closeAllCall
  deriving Repr, DecidableEq

/-- Dispatch one event. -/
def sysStep (st : SysState) : SysEvent → SysState
  | .notifyCall n => (notify st n).2
  | .runShow => runShowTask st
  | .taskFault => { st with aq := aqFault st.aq }
  | .windowClosed wid => onWindowClosed st wid
  | .closeAllCall => closeAll st

/-- Run an event trace from the just-loaded module state. -/
def sysRun (cfg : Config) (es : List SysEvent) : SysState :=
  es.foldl sysStep (initSys cfg)

/-- Whether an event is an API `notify` call. -/
def isNotifyEvent : SysEvent → Bool
  | .notifyCall _ => true
  | _ => false

/-- Number of `notify` calls in a trace. -/
def countNotify (es : List SysEvent) : Nat :=
  (es.filter isNotifyEvent).length

/-- Every window of a list sits at the slot coordinate of its index. -/
def posOk (cfg : Config) (l : List Win) : Prop :=
  ∀ (i : Nat) (w : Win), l[i]? = some w → w.y = targetY cfg i

/-- Every active notification sits at the slot coordinate of its index. -/
def positionsOk (st : SysState) : Prop :=
  posOk st.config st.activeNotifications

/-! ### buildCloseNotification (src/index.js lines 215-238) -/

/-- Window-registry state seen by a close closure: `live` are the ids
`BrowserWindow.fromId` still resolves, `withCloseFunc` the windows carrying
`electronNotifyOnCloseFunc`, `timersCleared` the window ids whose dismiss
timer was cancelled, and `fired` the `(event, id)` arguments delivered to
close callbacks. -/
structure CloseState where
  live : List Nat
  withCloseFunc : List Nat
  timersCleared : List Nat
  fired : List (String × Nat)
  deriving Repr, DecidableEq

/-- Line 217: `event = event || 'closedByAPI'` — any falsy reason (absent
argument or empty string) is replaced by `"closedByAPI"`. -/
def jsEventOrDefault (ev : Option String) : String :=
  match ev with
  | none => "closedByAPI"
  | some s => if s = "" then "closedByAPI" else s

/-- The closure returned by `buildCloseNotification(winId, notificationObj,
getTimeoutId)`, applied to a reason.  `hasTimeout` models whether a
`getTimeoutId` function was supplied.  If `BrowserWindow.fromId` returns
nothing the whole body is skipped. -/
def closeNotification (st : CloseState) (winId : Nat) (notifId : Nat)
    (ev : Option String) (hasTimeout : Bool) : CloseState :=
  if winId ∈ st.live then
    let st1 :=
      if winId ∈ st.withCloseFunc then
        { st with fired := st.fired ++ [(jsEventOrDefault ev, notifId)] }
      else st
    let st2 :=
      if hasTimeout then { st1 with timersCleared := st1.timersCleared ++ [winId] }
      else st1
    { st2 with live := st2.live.erase winId }
  else st

/-- `Math.trunc` on an exact rational: integer division of the numerator by
the denominator rounds toward zero. -/
def jsTrunc (q : ℚ) : Int :=
  q.num.tdiv (q.den : Int)

/-- One iteration of the `next` stepper inside `moveNotificationAnimation`
(lines 313-328).  `live` is whether `BrowserWindow.fromId(winId)` still
resolves at this step; `posY` and `delta`/`direction`/`timeDelta` are the
values captured when the animation started, `elapsed` is
`Date.now() - startTime`, and `curY` the window's current vertical position
(unchanged when `deltaPosY` is not positive or the window is gone). -/
def animStepY (live : Bool) (posY : Int) (delta : Int) (direction : Int)
    (timeDelta elapsed : ℚ) (curY : Int) : Int :=
  if live then
    let percents := min (100 / timeDelta * elapsed) 100
    let deltaPosY := jsTrunc ((delta : ℚ) / 100 * percents)
    if 0 < deltaPosY then posY + deltaPosY * direction else curY
  else curY

/-! ### Concrete instances used by witnesses and counterexamples -/

/-- A concrete configuration: the source defaults on a 1280×800 work area
(anchor at (1280, 800), `totalHeight = 88`), with the visible cap at 1 so
capacity behaviour is observable on short traces. -/
def cfg0 : Config :=
  { width := 352, height := 78, padding := 10,
    displayTime := 6000, animationSpeed := 700, animationFps := 60,
    lowerRightCornerX := 1280, lowerRightCornerY := 800,
    totalWidth := 362, totalHeight := 88,
    firstPosX := 918, firstPosY := 712,
    maxVisibleNotifications := 1 }

/-- A concrete primary display: bounds at the origin, 1280×800 work area. -/
def d0 : Display :=
  { boundsX := 0, boundsY := 0, workAreaX := 0, workAreaY := 0,
    workAreaWidth := 1280, workAreaHeight := 800 }

/-- A payload with no per-call options. -/
def n0 : Notif := { id := 0, displayTime := none }

/-- A payload that explicitly passes `displayTime: 0`. -/
def nZero : Notif := { id := 0, displayTime := some 0 }

/-- A state whose active set is at the cap (`cfg0` caps at 1). -/
def stCap : SysState :=
  { config := cfg0,
    nextInsertPosX := some 918,
    nextInsertPosY := some 712,
    activeNotifications := [{ id := 1, y := 712 }],
    notificationQueue := [],
    aq := aqInit,
    latestID := 2,
    windowsCreated := 1,
    timers := [(1, 6000)],
    returnedIds := [1] }

/-- A state with a free slot and one pending notification. -/
def stQueued : SysState :=
  { stCap with activeNotifications := [], notificationQueue := [n0] }

/-- A fresh-like state whose config default `displayTime` has been set to
100 (as by `setConfiguration({displayTime: 100})`). -/
def st100 : SysState :=
  { stCap with config := { cfg0 with displayTime := 100 },
               activeNotifications := [], timers := [] }

/-- The `setConfig` argument `{height: 300}`. -/
def custom300 : CustomConfig :=
  { width := none, height := some 300, padding := none,
    displayTime := none, animationSpeed := none, animationFps := none }

/-- A window registry with one live window, id 1, carrying a close
callback. -/
def cs0 : CloseState :=
  { live := [1], withCloseFunc := [1], timersCleared := [], fired := [] }

/-- Fill the single `cfg0` slot, overflow one payload into the pending
queue, then call `closeAll`. -/
def trCloseAll : List SysEvent :=
  [SysEvent.notifyCall n0, SysEvent.runShow, SysEvent.notifyCall n0,
   SysEvent.runShow, SysEvent.closeAllCall]

/-- `trCloseAll`, followed by a further `notify` whose show task then runs
against the `closeAll`-damaged insert position. -/
def trCloseAllNotify : List SysEvent :=
  trCloseAll ++ [SysEvent.notifyCall n0, SysEvent.runShow]

/-! ### Lemmas about the AnimationQueue -/

/-- A fresh queue satisfies the invariant. -/
theorem aqInv_init {τ : Type} : AQInv (aqInit : AQState τ) := by
  refine ⟨rfl, rfl, ?_, ?_⟩ <;> intro h <;> simp [aqInit] at h ⊢

/-- One event preserves the invariant. -/
theorem aqInv_step {τ : Type} (s : AQState τ) (e : AQEvent τ) (h : AQInv s) :
    AQInv (aqStep s e) := by
  obtain ⟨h1, h2, h3, h4⟩ := h
  cases e with
  | push t =>
    by_cases hr : s.running
    · simp only [aqStep, aqPush, if_pos hr]
      refine ⟨by simp [h1], h2, h3, ?_⟩
      intro hf
      exact absurd hf (by simp [hr])
    · have hq : s.queue = [] := h4 (by simpa using hr)
      have hif : s.inFlight = none := by
        cases hA : s.inFlight with
        | none => rfl
        | some x => exact absurd (h3 (by simp [hA])) (by simpa using hr)
      simp only [aqStep, aqPush, if_neg hr]
      refine ⟨by simp [h1, hq], ?_, fun _ => rfl, ?_⟩
      · simp [hif] at h2
        simp [h2]
      · intro hf
        simp at hf
  | complete =>
    cases hif : s.inFlight with
    | none => simpa [aqStep, aqComplete, hif] using ⟨h1, h2, h3, h4⟩
    | some x =>
      have hc : s.inFlightCount = 1 := by
        simp [hif] at h2
        exact h2
      cases hq : s.queue with
      | nil =>
        simp only [aqStep, aqComplete, hif, hq]
        refine ⟨by simpa [hq] using h1, by simp [hc], ?_, fun _ => rfl⟩
        intro hf
        simp at hf
      | cons t rest =>
        simp only [aqStep, aqComplete, hif, hq]
        refine ⟨by simp [h1, hq], by simpa using hc, ?_, ?_⟩
        · intro _
          exact h3 (by simp [hif])
        · intro hf
          have := h3 (by simp [hif])
          rw [this] at hf
          simp at hf
  | fault =>
    cases hif : s.inFlight with
    | none => simpa [aqStep, aqFault, hif] using ⟨h1, h2, h3, h4⟩
    | some x =>
      have hc : s.inFlightCount = 1 := by
        simp [hif] at h2
        exact h2
      simp only [aqStep, aqFault, hif]
      refine ⟨h1, by simp [hc], ?_, ?_⟩
      · intro hf
        simp at hf
      · intro hf
        have := h3 (by simp [hif])
        rw [this] at hf
        simp at hf

/-- The invariant holds along every event trace. -/
theorem aqInv_foldl {τ : Type} (es : List (AQEvent τ)) (s : AQState τ) (h : AQInv s) :
    AQInv (es.foldl aqStep s) := by
  induction es generalizing s with
  | nil => exact h
  | cons e es ih => exact ih _ (aqInv_step s e h)

/-- Once the queue is wedged (`running` still set but no task body executing),
no event ever starts another task: `push` only appends, and neither a
completion nor a fault handler can fire for a task that is not running. -/
theorem aq_stalled_foldl (s : AQState Nat) (es : List (AQEvent Nat))
    (hif : s.inFlight = none) (hr : s.running = true) :
    (es.foldl aqStep s).started = s.started ∧
    (es.foldl aqStep s).running = true ∧
    (es.foldl aqStep s).inFlight = none := by
  induction es generalizing s with
  | nil => exact ⟨rfl, hr, hif⟩
  | cons e es ih =>
    cases e with
    | push t =>
      have hstep : aqStep s (AQEvent.push t) =
          { s with queue := s.queue ++ [t], submitted := s.submitted ++ [t] } := by
        simp [aqStep, aqPush, hr]
      rw [List.foldl_cons, hstep]
      exact ih _ hif hr
    | complete =>
      have hstep : aqStep s AQEvent.complete = s := by
        simp [aqStep, aqComplete, hif]
      rw [List.foldl_cons, hstep]
      exact ih _ hif hr
    | fault =>
      have hstep : aqStep s AQEvent.fault = s := by
        simp [aqStep, aqFault, hif]
      rw [List.foldl_cons, hstep]
      exact ih _ hif hr

/-! ### Preservation lemmas for the module-level state -/

/-- `showNotification` never touches the configuration, the id counter, the
returned-id trace, or the animation queue — on either outcome. -/
theorem showNotification_frame (st : SysState) (n : Notif) :
    ((showNotification st n).1).config = st.config ∧
    ((showNotification st n).1).latestID = st.latestID ∧
    ((showNotification st n).1).returnedIds = st.returnedIds ∧
    ((showNotification st n).1).aq = st.aq := by
  simp only [showNotification]
  split
  · split <;> exact ⟨rfl, rfl, rfl, rfl⟩
  · exact ⟨rfl, rfl, rfl, rfl⟩

/-- A show task never pushes the active set above the cap: the success path
is guarded by `length < max`, the throw path and the at-cap path leave the
active set unchanged. -/
theorem showNotification_cap (st : SysState) (n : Notif)
    (h : st.activeNotifications.length ≤ st.config.maxVisibleNotifications) :
    ((showNotification st n).1).activeNotifications.length ≤
      st.config.maxVisibleNotifications := by
  simp only [showNotification]
  split
  · rename_i hlt
    split
    · exact h
    · simp only [List.length_append, List.length_cons, List.length_nil]
      omega
  · exact h

/-- `checkForQueuedNotifications` never touches the configuration, the active
set, the id counter, or the returned-id trace. -/
theorem checkForQueuedNotifications_frame (st : SysState) :
    (checkForQueuedNotifications st).config = st.config ∧
    (checkForQueuedNotifications st).activeNotifications = st.activeNotifications ∧
    (checkForQueuedNotifications st).latestID = st.latestID ∧
    (checkForQueuedNotifications st).returnedIds = st.returnedIds := by
  simp only [checkForQueuedNotifications]
  split
  · exact ⟨rfl, rfl, rfl, rfl⟩
  · split <;> exact ⟨rfl, rfl, rfl, rfl⟩

/-- `moveOneDown` only repositions windows: everything except
`activeNotifications` is untouched, and the length of the active set is
preserved. -/
theorem moveWins_length (cfg : Config) (sp : Int) :
    ∀ (l : List Win) (i : Nat), (moveWins cfg sp i l).length = l.length := by
  intro l
  induction l with
  | nil => intro i; rfl
  | cons w ws ih => intro i; simp [moveWins, ih]

/-- Frame lemma for `moveOneDown`. -/
theorem moveOneDown_frame (st : SysState) (sp : Int) :
    (moveOneDown st sp).config = st.config ∧
    (moveOneDown st sp).notificationQueue = st.notificationQueue ∧
    (moveOneDown st sp).aq = st.aq ∧
    (moveOneDown st sp).latestID = st.latestID ∧
    (moveOneDown st sp).returnedIds = st.returnedIds ∧
    (moveOneDown st sp).activeNotifications.length = st.activeNotifications.length := by
  simp only [moveOneDown]
  split
  · exact ⟨rfl, rfl, rfl, rfl, rfl, rfl⟩
  · exact ⟨rfl, rfl, rfl, rfl, rfl, moveWins_length st.config sp st.activeNotifications 0⟩

/-- Frame lemma for the `'closed'` listener. -/
theorem onWindowClosed_frame (st : SysState) (wid : Nat) :
    (onWindowClosed st wid).config = st.config ∧
    (onWindowClosed st wid).latestID = st.latestID ∧
    (onWindowClosed st wid).returnedIds = st.returnedIds := by
  simp only [onWindowClosed]
  split
  · exact ⟨rfl, rfl, rfl⟩
  · refine ⟨?_, ?_, ?_⟩
    · rw [(moveOneDown_frame _ _).1, (checkForQueuedNotifications_frame _).1]
    · rw [(moveOneDown_frame _ _).2.2.2.1, (checkForQueuedNotifications_frame _).2.2.1]
    · rw [(moveOneDown_frame _ _).2.2.2.2.1, (checkForQueuedNotifications_frame _).2.2.2]

/-- The active list produced by `runShowTask`: the body's effect on the
active set, whichever outcome the body has. -/
theorem runShowTask_active (st : SysState) :
    (runShowTask st).activeNotifications =
      match st.aq.inFlight with
      | none => st.activeNotifications
      | some n => ((showNotification st n).1).activeNotifications := by
  simp only [runShowTask]
  cases st.aq.inFlight with
  | none => rfl
  | some n =>
    dsimp only
    by_cases hb : (showNotification st n).2 = true
    · rw [if_pos hb]
    · rw [if_neg hb]

/-- Frame lemma for `runShowTask`. -/
theorem runShowTask_frame (st : SysState) :
    (runShowTask st).config = st.config ∧
    (runShowTask st).latestID = st.latestID ∧
    (runShowTask st).returnedIds = st.returnedIds := by
  simp only [runShowTask]
  split
  · exact ⟨rfl, rfl, rfl⟩
  · split <;>
      exact ⟨(showNotification_frame _ _).1, (showNotification_frame _ _).2.1,
        (showNotification_frame _ _).2.2.1⟩

/-- Every event preserves the configuration. -/
theorem sysStep_config (st : SysState) (e : SysEvent) :
    (sysStep st e).config = st.config := by
  cases e with
  | notifyCall n => rfl
  | runShow => exact (runShowTask_frame st).1
  | taskFault => rfl
  | windowClosed wid => exact (onWindowClosed_frame st wid).1
  | closeAllCall => rfl

/-- How one event changes `latestID`: only a `notify` call increments it. -/
theorem sysStep_latestID (st : SysState) (e : SysEvent) :
    (sysStep st e).latestID = st.latestID + (if isNotifyEvent e then 1 else 0) := by
  cases e with
  | notifyCall n => simp [sysStep, notify, isNotifyEvent]
  | runShow => simp [sysStep, isNotifyEvent, (runShowTask_frame st).2.1]
  | taskFault => simp [sysStep, isNotifyEvent]
  | windowClosed wid => simp [sysStep, isNotifyEvent, (onWindowClosed_frame st wid).2.1]
  | closeAllCall => simp [sysStep, closeAll, isNotifyEvent]

/-- `latestID` along a trace: the initial value plus one per `notify`. -/
theorem foldl_latestID (es : List SysEvent) (s : SysState) :
    (es.foldl sysStep s).latestID = s.latestID + countNotify es := by
  induction es generalizing s with
  | nil => simp [countNotify]
  | cons e es ih =>
    rw [List.foldl_cons, ih, sysStep_latestID]
    have : countNotify (e :: es) = (if isNotifyEvent e then 1 else 0) + countNotify es := by
      simp only [countNotify, List.filter]
      split
      · simp_all
        omega
      · simp_all
    omega

/-- Removing an index never lengthens a list. -/
theorem length_eraseIdx_le {α : Type} (l : List α) : ∀ p, (l.eraseIdx p).length ≤ l.length := by
  induction l with
  | nil =>
    intro p
    simp [List.eraseIdx]
  | cons a l ih =>
    intro p
    cases p with
    | zero => simp [List.eraseIdx]
    | succ p =>
      simp only [List.eraseIdx, List.length_cons]
      exact Nat.succ_le_succ (ih p)

/-- The configuration is constant along a trace. -/
theorem foldl_config (es : List SysEvent) (s : SysState) :
    (es.foldl sysStep s).config = s.config := by
  induction es generalizing s with
  | nil => rfl
  | cons e es ih => rw [List.foldl_cons, ih, sysStep_config]

/-- One event preserves the visible-count cap. -/
theorem cap_step (st : SysState) (e : SysEvent)
    (h : st.activeNotifications.length ≤ st.config.maxVisibleNotifications) :
    (sysStep st e).activeNotifications.length ≤ (sysStep st e).config.maxVisibleNotifications := by
  rw [sysStep_config]
  cases e with
  | notifyCall n => exact h
  | runShow =>
    simp only [sysStep]
    rw [runShowTask_active]
    cases st.aq.inFlight with
    | none => exact h
    | some n => exact showNotification_cap st n h
  | taskFault => exact h
  | windowClosed wid =>
    simp only [sysStep, onWindowClosed]
    split
    · exact h
    · rw [(moveOneDown_frame _ _).2.2.2.2.2, (checkForQueuedNotifications_frame _).2.1]
      exact le_trans (length_eraseIdx_le st.activeNotifications _) h
  | closeAllCall => simp [sysStep, closeAll]

/-- The visible-count cap holds along every trace. -/
theorem cap_foldl (es : List SysEvent) (s : SysState)
    (h : s.activeNotifications.length ≤ s.config.maxVisibleNotifications) :
    (es.foldl sysStep s).activeNotifications.length ≤
      (es.foldl sysStep s).config.maxVisibleNotifications := by
  induction es generalizing s with
  | nil => exact h
  | cons e es ih => exact ih (sysStep s e) (cap_step s e h)

/-! ### Lemmas about the reflow animation -/

/-- Index lookup after `eraseIdx`: indices below the removed position are
unchanged, indices at or above it shift up by one. -/
theorem eraseIdx_getElem? {α : Type} :
    ∀ (l : List α) (p i : Nat),
      (l.eraseIdx p)[i]? = if i < p then l[i]? else l[i + 1]? := by
  intro l
  induction l with
  | nil =>
    intro p i
    simp [List.eraseIdx]
  | cons a l ih =>
    intro p i
    cases p with
    | zero => simp [List.eraseIdx]
    | succ p =>
      cases i with
      | zero => simp [List.eraseIdx]
      | succ i =>
        simp only [List.eraseIdx, List.getElem?_cons_succ]
        rw [ih p i]
        simp [Nat.succ_lt_succ_iff]

/-- Index lookup in the reflow loop: the window at absolute index `k + i` is
re-targeted exactly when the loop visits it (`startPos ≤ k + i`). -/
theorem moveWins_getElem? (cfg : Config) (sp : Int) :
    ∀ (l : List Win) (k i : Nat),
      (moveWins cfg sp k l)[i]? = (l[i]?).map
        (fun w => if sp ≤ ((k + i : Nat) : Int) then
            { w with y := moveFinalY cfg w.y (k + i) } else w) := by
  intro l
  induction l with
  | nil =>
    intro k i
    simp [moveWins]
  | cons w ws ih =>
    intro k i
    cases i with
    | zero => simp [moveWins]
    | succ i =>
      simp only [moveWins, List.getElem?_cons_succ]
      rw [ih (k + 1) i]
      have hk : k + 1 + i = k + (i + 1) := by omega
      simp [hk]

/-- With a positive animation speed, a visited window always settles at the
slot coordinate of its index: either it already sits there (zero delta, the
animation is skipped) or the animation runs to 100% and lands on it. -/
theorem moveFinalY_eq_target (cfg : Config) (hsp : 0 < cfg.animationSpeed)
    (y : Int) (i : Nat) : moveFinalY cfg y i = targetY cfg i := by
  by_cases h : y = targetY cfg i
  · subst h
    simp [moveFinalY]
  · have hd : (0 : Int) < max (targetY cfg i) y - min (targetY cfg i) y := by
      rw [max_sub_min_eq_abs]
      apply abs_pos.mpr
      apply sub_ne_zero.mpr
      intro hc
      first
      | exact h hc.symm
      | exact h hc
    have htd : (0 : ℚ) <
        ((max (targetY cfg i) y - min (targetY cfg i) y : Int) : ℚ) /
          cfg.animationSpeed * 1000 := by
      apply mul_pos
      · apply div_pos
        · exact_mod_cast hd
        · exact hsp
      · norm_num
    simp only [moveFinalY]
    rw [if_pos htd]

/-- `moveFinalY` computes either the slot coordinate or the unchanged
position. -/
theorem moveFinalY_cases (cfg : Config) (y : Int) (i : Nat) :
    moveFinalY cfg y i = targetY cfg i ∨ moveFinalY cfg y i = y := by
  simp only [moveFinalY]
  split
  · exact Or.inl rfl
  · exact Or.inr rfl

/-- Settling a window twice at the same index is the same as settling it
once. -/
theorem moveFinalY_idem (cfg : Config) (y : Int) (i : Nat) :
    moveFinalY cfg (moveFinalY cfg y i) i = moveFinalY cfg y i := by
  by_cases h : moveFinalY cfg y i = targetY cfg i
  · rw [h]
    simp [moveFinalY]
  · have h1 : moveFinalY cfg y i = y := by
      rcases moveFinalY_cases cfg y i with hc | hc
      · exact absurd hc h
      · exact hc
    rw [h1]
    exact h1

/-- Running the reflow loop twice is the same as running it once. -/
theorem moveWins_idem (cfg : Config) (sp : Int) :
    ∀ (l : List Win) (k : Nat),
      moveWins cfg sp k (moveWins cfg sp k l) = moveWins cfg sp k l := by
  intro l
  induction l with
  | nil => intro k; rfl
  | cons w ws ih =>
    intro k
    by_cases h : sp ≤ (k : Int)
    · simp [moveWins, h, moveFinalY_idem, ih]
    · simp [moveWins, h, ih]

/-- The active list produced by a show task: either untouched (at the cap,
or the body threw at `setPosition`) or extended by one window at the slot
coordinate of its index. -/
theorem showNotification_active (st : SysState) (n : Notif) :
    ((showNotification st n).1).activeNotifications = st.activeNotifications ∨
    ((showNotification st n).1).activeNotifications =
      st.activeNotifications ++
        [{ id := st.windowsCreated + 1,
           y := targetY st.config st.activeNotifications.length }] := by
  simp only [showNotification, targetY]
  split
  · split
    · exact Or.inl rfl
    · exact Or.inr rfl
  · exact Or.inl rfl

/-- The active list produced by `moveOneDown`. -/
theorem moveOneDown_active (st : SysState) (sp : Int) :
    (moveOneDown st sp).activeNotifications =
      if moveOneDownGuard sp st.activeNotifications.length then st.activeNotifications
      else moveWins st.config sp 0 st.activeNotifications := by
  simp only [moveOneDown]
  split <;> simp_all

/-- Reflow after a removal restores the slot invariant: windows below the
vacated index keep their (already correct) positions, windows at or above it
settle at the slot coordinate of their shifted index. -/
theorem posOk_reflow (cfg : Config) (hsp : 0 < cfg.animationSpeed)
    (l : List Win) (pos : Nat) (h : posOk cfg l) :
    posOk cfg
      (if moveOneDownGuard (pos : Int) (l.eraseIdx pos).length then l.eraseIdx pos
       else moveWins cfg (pos : Int) 0 (l.eraseIdx pos)) := by
  split
  · rename_i hg
    have hlen : (l.eraseIdx pos).length = 0 := by
      simp only [moveOneDownGuard, Bool.or_eq_true, Bool.and_eq_true, decide_eq_true_eq] at hg
      rcases hg with ⟨h0, _⟩ | hneg
      · exact h0
      · omega
    intro i w hw
    rw [List.length_eq_zero.mp hlen] at hw
    simp at hw
  · intro i w hw
    rw [moveWins_getElem?, eraseIdx_getElem?] at hw
    by_cases hip : i < pos
    · rw [if_pos hip] at hw
      cases hl : l[i]? with
      | none =>
        rw [hl] at hw
        simp at hw
      | some w0 =>
        rw [hl] at hw
        have hcond : ¬ ((pos : Int) ≤ ((0 + i : Nat) : Int)) := by
          push_cast
          omega
        simp only [Option.map_some', if_neg hcond, Option.some.injEq] at hw
        rw [← hw]
        exact h i w0 hl
    · rw [if_neg hip] at hw
      cases hl : l[i + 1]? with
      | none =>
        rw [hl] at hw
        simp at hw
      | some w0 =>
        rw [hl] at hw
        have hcond : (pos : Int) ≤ ((0 + i : Nat) : Int) := by
          push_cast
          omega
        simp only [Option.map_some', if_pos hcond, Option.some.injEq] at hw
        rw [← hw]
        simp only [Nat.zero_add]
        exact moveFinalY_eq_target cfg hsp w0.y i

/-- A show task preserves the slot invariant. -/
theorem positionsOk_show (st : SysState) (n : Notif) (h : positionsOk st) :
    positionsOk ((showNotification st n).1) := by
  simp only [positionsOk] at h ⊢
  rw [(showNotification_frame st n).1]
  rcases showNotification_active st n with ha | ha
  · rw [ha]
    exact h
  · rw [ha]
    intro i w hw
    rcases lt_trichotomy i st.activeNotifications.length with hlt | heqi | hgt
    · rw [List.getElem?_append_left hlt] at hw
      exact h i w hw
    · subst heqi
      rw [List.getElem?_concat_length] at hw
      cases hw
      rfl
    · rw [List.getElem?_append_right (by omega)] at hw
      rw [show i - st.activeNotifications.length =
            (i - st.activeNotifications.length - 1) + 1 from by omega] at hw
      simp at hw

/-- A close event preserves the slot invariant. -/
theorem positionsOk_close (st : SysState) (wid : Nat)
    (hsp : 0 < st.config.animationSpeed) (h : positionsOk st) :
    positionsOk (onWindowClosed st wid) := by
  simp only [positionsOk] at h ⊢
  simp only [onWindowClosed]
  split
  · exact h
  · rename_i pos hfind
    rw [(moveOneDown_frame _ _).1, (checkForQueuedNotifications_frame _).1,
      moveOneDown_active, (checkForQueuedNotifications_frame _).1,
      (checkForQueuedNotifications_frame _).2.1]
    exact posOk_reflow st.config hsp st.activeNotifications pos h

/-- Every event preserves the slot invariant. -/
theorem positionsOk_step (st : SysState) (e : SysEvent)
    (hsp : 0 < st.config.animationSpeed) (h : positionsOk st) :
    positionsOk (sysStep st e) := by
  cases e with
  | notifyCall n => exact h
  | runShow =>
    simp only [sysStep, positionsOk]
    rw [(runShowTask_frame st).1, runShowTask_active]
    cases st.aq.inFlight with
    | none => exact h
    | some n =>
      have hps := positionsOk_show st n h
      simp only [positionsOk] at hps
      rwa [(showNotification_frame st n).1] at hps
  | taskFault => exact h
  | windowClosed wid => exact positionsOk_close st wid hsp h
  | closeAllCall =>
    intro i w hw
    simp [sysStep, closeAll] at hw

/-- The slot invariant holds along every trace. -/
theorem positionsOk_foldl (es : List SysEvent) (s : SysState)
    (hsp : 0 < s.config.animationSpeed) (h : positionsOk s) :
    positionsOk (es.foldl sysStep s) := by
  induction es generalizing s with
  | nil => exact h
  | cons e es ih =>
    refine ih (sysStep s e) ?_ (positionsOk_step s e hsp h)
    rw [sysStep_config]
    exact hsp

/-- Appending the next value to an interval list (step-1 `range'`). -/
theorem range'_snoc (s n : Nat) : List.range' s (n + 1) = List.range' s n ++ [s + n] := by
  induction n generalizing s with
  | zero => simp [List.range']
  | succ n ih =>
    have h1 : List.range' s (n + 1 + 1) = s :: List.range' (s + 1) (n + 1) := by
      simp [List.range']
    have h2 : List.range' s (n + 1) = s :: List.range' (s + 1) n := by
      simp [List.range']
    rw [h1, ih, h2]
    have h3 : s + 1 + n = s + (n + 1) := by omega
    simp [h3]

/-- The returned-id trace is `[1, 2, …, latestID - 1]` along every trace. -/
theorem foldl_returnedIds (es : List SysEvent) (s : SysState)
    (h : s.returnedIds = List.range' 1 (s.latestID - 1)) (h1 : 1 ≤ s.latestID) :
    (es.foldl sysStep s).returnedIds =
      List.range' 1 ((es.foldl sysStep s).latestID - 1) ∧
    1 ≤ (es.foldl sysStep s).latestID := by
  induction es generalizing s with
  | nil => exact ⟨h, h1⟩
  | cons e es ih =>
    rw [List.foldl_cons]
    refine ih (sysStep s e) ?_ ?_
    · cases e with
      | notifyCall n =>
        simp only [sysStep, notify, h]
        have hl : s.latestID + 1 - 1 = (s.latestID - 1) + 1 := by omega
        rw [hl, range'_snoc]
        have hl2 : 1 + (s.latestID - 1) = s.latestID := by omega
        rw [hl2]
      | runShow =>
        simp only [sysStep]
        rw [(runShowTask_frame s).2.2, (runShowTask_frame s).2.1]
        exact h
      | taskFault => exact h
      | windowClosed wid =>
        simp only [sysStep]
        rw [(onWindowClosed_frame s wid).2.2, (onWindowClosed_frame s wid).2.1]
        exact h
      | closeAllCall => exact h
    · rw [sysStep_latestID]
      omega

/-! ### Lemmas about the close closure and the animation stepper -/

/-- The registry after a close call: the window is destroyed (removed from
the registry) exactly when it was live. -/
theorem closeNotification_live (st : CloseState) (w nid : Nat)
    (ev : Option String) (ht : Bool) :
    (closeNotification st w nid ev ht).live =
      if w ∈ st.live then st.live.erase w else st.live := by
  simp only [closeNotification]
  by_cases h : w ∈ st.live
  · rw [if_pos h, if_pos h]
    split <;> split <;> rfl
  · rw [if_neg h, if_neg h]

/-- Closing a window id that the registry does not resolve is a no-op. -/
theorem closeNotification_not_live (st : CloseState) (w nid : Nat)
    (ev : Option String) (ht : Bool) (h : w ∉ st.live) :
    closeNotification st w nid ev ht = st := by
  simp [closeNotification, h]

/-- `Math.trunc` of an integer-valued rational is that integer. -/
theorem jsTrunc_intCast (n : Int) : jsTrunc ((n : Int) : ℚ) = n := by
  simp [jsTrunc, Rat.num_intCast, Rat.den_intCast, Int.tdiv_one]

/-- Once the elapsed time reaches the animation duration, the stepper clamps
`percents` to 100 and sets the window exactly `delta` pixels from the start
position — i.e. on `newPosY` (which is `posY + delta * direction`). -/
theorem animStepY_settles (posY delta direction : Int) (timeDelta elapsed : ℚ)
    (curY : Int) (hd : 0 < delta) (ht : 0 < timeDelta) (he : timeDelta ≤ elapsed) :
    animStepY true posY delta direction timeDelta elapsed curY =
      posY + delta * direction := by
  have h100 : (100 : ℚ) ≤ 100 / timeDelta * elapsed := by
    have h1 : (100 : ℚ) / timeDelta * timeDelta ≤ 100 / timeDelta * elapsed :=
      mul_le_mul_of_nonneg_left he (le_of_lt (div_pos (by norm_num) ht))
    rwa [div_mul_cancel₀ _ (ne_of_gt ht)] at h1
  have hmin : min (100 / timeDelta * elapsed) (100 : ℚ) = 100 := min_eq_right h100
  have hdp : jsTrunc ((delta : ℚ) / 100 * 100) = delta := by
    rw [div_mul_cancel₀ _ (by norm_num : (100 : ℚ) ≠ 0)]
    exact jsTrunc_intCast delta
  simp only [animStepY, if_pos rfl, hmin, hdp]
  rw [if_pos hd]
  simp

/-! ### Claim theorems -/

/-- C1: the animation serializer runs at most one task at a time — along
every event trace the number of task bodies executing is at most one — and
tasks start in exactly their FIFO submission order: at all times the
submission sequence is the started sequence followed by the waiting queue,
and a `push` issued while a task is running only appends to the queue,
starting nothing. -/
theorem animation_queue_single_flight_fifo :
    (∀ es : List (AQEvent Nat),
      (aqRun es).submitted = (aqRun es).started ++ (aqRun es).queue ∧
      (aqRun es).inFlightCount ≤ 1) ∧
    (∀ (s : AQState Nat) (t : Nat), s.running = true →
      aqPush s t =
        { s with queue := s.queue ++ [t], submitted := s.submitted ++ [t] }) := by
  constructor
  · intro es
    obtain ⟨h1, h2, -, -⟩ := aqInv_foldl es aqInit aqInv_init
    refine ⟨h1, ?_⟩
    simp only [aqRun]
    rw [h2]
    split <;> omega
  · intro s t hr
    simp [aqPush, hr]

/-- C1 witness: after submitting task 0 the queue is running, and submitting
task 1 then only appends it. -/
theorem animation_queue_single_flight_fifo_witness :
    (aqRun [AQEvent.push 0]).running = true ∧
    aqPush (aqRun [AQEvent.push 0]) 1 =
      { aqRun [AQEvent.push 0] with
        queue := (aqRun [AQEvent.push 0]).queue ++ [1],
        submitted := (aqRun [AQEvent.push 0]).submitted ++ [1] } :=
  ⟨by decide, animation_queue_single_flight_fifo.2 (aqRun [AQEvent.push 0]) 1 (by decide)⟩

/-- C2 counterexample: submit tasks 0 and 1, then task 0 faults.  The fault
is logged, but the serializer stalls: task 1 stays queued and never starts
(even after a further completion signal, which cannot fire because nothing is
executing), and `running` never returns to false — contradicting "the task is
treated as complete: the serializer does not stall, the next queued task
still runs, and the serializer returns to Idle". -/
theorem animation_queue_fault_counterexample :
    (aqRun [AQEvent.push 0, AQEvent.push 1, AQEvent.fault]).logged = 1 ∧
    (aqRun [AQEvent.push 0, AQEvent.push 1, AQEvent.fault]).started = [0] ∧
    (aqRun [AQEvent.push 0, AQEvent.push 1, AQEvent.fault]).queue = [1] ∧
    (aqRun [AQEvent.push 0, AQEvent.push 1, AQEvent.fault]).running = true ∧
    (aqRun [AQEvent.push 0, AQEvent.push 1, AQEvent.fault, AQEvent.complete]).started = [0] ∧
    (aqRun [AQEvent.push 0, AQEvent.push 1, AQEvent.fault, AQEvent.complete]).running = true := by
  decide

/-- C2 amended: a task fault is logged (one `console.error`), but the task is
*not* treated as complete — the `.catch` handler leaves `running` set and the
queue unshifted, and from that wedged state (running, nothing executing) no
sequence of events ever starts another task or returns the serializer to
Idle. -/
theorem animation_queue_fault_stalls :
    (∀ (s : AQState Nat) (t : Nat), s.inFlight = some t →
      (aqFault s).logged = s.logged + 1 ∧
      (aqFault s).queue = s.queue ∧
      (aqFault s).running = s.running ∧
      (aqFault s).started = s.started ∧
      (aqFault s).inFlight = none) ∧
    (∀ (s : AQState Nat) (es : List (AQEvent Nat)),
      s.inFlight = none → s.running = true →
      (es.foldl aqStep s).started = s.started ∧
      (es.foldl aqStep s).running = true ∧
      (es.foldl aqStep s).inFlight = none) := by
  constructor
  · intro s t hif
    simp [aqFault, hif]
  · intro s es hif hr
    exact aq_stalled_foldl s es hif hr

/-- C3: along every event trace, the ids returned by the `notify` calls are
exactly `[1, 2, …, k]` for `k` the number of calls — ids start at 1, each
call returns one more than the previous, and no interleaved event reuses or
resets them — and `notify` returns the id immediately: the call itself
creates no window, changes neither the active set nor the pending queue, and
only enqueues the show task. -/
theorem notify_ids_monotone :
    (∀ (cfg : Config) (es : List SysEvent),
      (sysRun cfg es).returnedIds = List.range' 1 (countNotify es)) ∧
    (∀ (st : SysState) (n : Notif),
      (notify st n).1 = st.latestID ∧
      ((notify st n).2).latestID = st.latestID + 1 ∧
      ((notify st n).2).activeNotifications = st.activeNotifications ∧
      ((notify st n).2).windowsCreated = st.windowsCreated ∧
      ((notify st n).2).notificationQueue = st.notificationQueue ∧
      ((notify st n).2).aq = aqPush st.aq { n with id := st.latestID }) := by
  constructor
  · intro cfg es
    have h0 : (initSys cfg).returnedIds = List.range' 1 ((initSys cfg).latestID - 1) := by
      simp [initSys]
    have h := (foldl_returnedIds es (initSys cfg) h0 (by simp [initSys])).1
    have hl : (es.foldl sysStep (initSys cfg)).latestID = 1 + countNotify es := by
      rw [foldl_latestID]
      simp [initSys]
    simp only [sysRun] at h ⊢
    rw [h, hl]
    simp
  · intro st n
    exact ⟨rfl, rfl, rfl, rfl, rfl, rfl⟩

/-- C4: the active set never exceeds `maxVisibleNotifications` along any
trace; a show task that runs while the set is at the cap only appends the
payload to the pending queue (the state is otherwise untouched — in
particular no window is created); a queued notification is taken from the
*head* of the pending queue (FIFO) when a slot is free; and one close event
removes at most one notification from the pending queue. -/
theorem active_cap_pending_fifo :
    (∀ (cfg : Config) (es : List SysEvent),
      (sysRun cfg es).activeNotifications.length ≤ cfg.maxVisibleNotifications) ∧
    (∀ (st : SysState) (n : Notif),
      ¬ st.activeNotifications.length < st.config.maxVisibleNotifications →
      showNotification st n =
        ({ st with notificationQueue := st.notificationQueue ++ [n] }, true)) ∧
    (∀ (st : SysState) (n : Notif) (rest : List Notif),
      st.notificationQueue = n :: rest →
      st.activeNotifications.length < st.config.maxVisibleNotifications →
      checkForQueuedNotifications st =
        { st with notificationQueue := rest, aq := aqPush st.aq n }) ∧
    (∀ (st : SysState) (wid : Nat),
      (onWindowClosed st wid).notificationQueue = st.notificationQueue ∨
      (onWindowClosed st wid).notificationQueue = st.notificationQueue.tail) := by
  refine ⟨?_, ?_, ?_, ?_⟩
  · intro cfg es
    have h := cap_foldl es (initSys cfg) (by simp [initSys])
    rw [foldl_config] at h
    simpa [sysRun, initSys] using h
  · intro st n h
    simp [showNotification, h]
  · intro st n rest hq h
    simp [checkForQueuedNotifications, hq, h]
  · intro st wid
    simp only [onWindowClosed]
    split
    · exact Or.inl rfl
    · rw [(moveOneDown_frame _ _).2.1]
      simp only [checkForQueuedNotifications]
      split
      · exact Or.inl rfl
      · split
        · rename_i heq _
          right
          rw [heq]
          rfl
        · exact Or.inl rfl

/-- C5: with a positive animation speed, every reachable state keeps every
active notification at the slot coordinate of its index
(`targetY i = anchorY - totalHeight * (i + 1)`) — in particular, after any
close event the remaining notifications end at the coordinates of their new
indices, leaving no gaps — a close event preserves that invariant from any
state satisfying it, and the reflow is idempotent: triggering `moveOneDown`
twice with the same start index leaves exactly the state of triggering it
once. -/
theorem reflow_positions :
    (∀ (cfg : Config) (es : List SysEvent), 0 < cfg.animationSpeed →
      positionsOk (sysRun cfg es)) ∧
    (∀ (st : SysState) (wid : Nat), 0 < st.config.animationSpeed →
      positionsOk st → positionsOk (onWindowClosed st wid)) ∧
    (∀ (st : SysState) (sp : Int),
      moveOneDown (moveOneDown st sp) sp = moveOneDown st sp) := by
  refine ⟨?_, ?_, ?_⟩
  · intro cfg es hsp
    refine positionsOk_foldl es (initSys cfg) hsp ?_
    intro i w hw
    simp [initSys] at hw
  · exact fun st wid hsp h => positionsOk_close st wid hsp h
  · intro st sp
    by_cases hg : moveOneDownGuard sp st.activeNotifications.length = true
    · simp [moveOneDown, hg]
    · have hg2 : ¬ moveOneDownGuard sp
          (moveWins st.config sp 0 st.activeNotifications).length = true := by
        rw [moveWins_length]
        exact hg
      simp [moveOneDown, hg, hg2, moveWins_idem]

/-- C5 witness: `cfg0` has positive animation speed, and the invariant holds
after a notify/show trace. -/
theorem reflow_positions_witness :
    (0 : ℚ) < cfg0.animationSpeed ∧
    positionsOk (sysRun cfg0 [SysEvent.notifyCall n0, SysEvent.runShow]) :=
  ⟨by decide,
   reflow_positions.1 cfg0 [SysEvent.notifyCall n0, SysEvent.runShow] (by decide)⟩

/-- C4 witness: at the cap (`stCap`), a show task only enqueues; with a free
slot and one pending payload (`stQueued`), the check dequeues exactly that
head. -/
theorem active_cap_pending_fifo_witness :
    showNotification stCap n0 =
      ({ stCap with notificationQueue := stCap.notificationQueue ++ [n0] }, true) ∧
    checkForQueuedNotifications stQueued =
      { stQueued with notificationQueue := [], aq := aqPush stQueued.aq n0 } :=
  ⟨active_cap_pending_fifo.2.1 stCap n0 (by decide),
   active_cap_pending_fifo.2.2.1 stQueued n0 [] rfl (by decide)⟩

/-- C6 counterexample, in two parts against the claim's two false conjuncts.
Under `cfg0` (cap 1), notify twice and run both show tasks — the second
payload (id 2) lands in the pending queue — then call `closeAll`
(`trCloseAll`): the pending queue still holds id 2, contradicting
"closeAll() empties … the Pending Queue".  And a subsequent `notify` does
*not* place its notification at slot index 0 (`trCloseAllNotify`): its show
task finds the `nextInsertPos.x` that `closeAll` nulled (and `calcInsertPos`
does not restore), throws at `setPosition`, and places nothing — the active
set stays empty, a second window was created and leaked
(`windowsCreated = 2`), and the serializer is left wedged (one fault logged,
`running` still set with nothing in flight). -/
theorem close_all_pending_counterexample :
    (sysRun cfg0 trCloseAll).notificationQueue = [{ id := 2, displayTime := none }] ∧
    (sysRun cfg0 trCloseAll).notificationQueue ≠ [] ∧
    (sysRun cfg0 trCloseAllNotify).activeNotifications = [] ∧
    (sysRun cfg0 trCloseAllNotify).windowsCreated = 2 ∧
    (sysRun cfg0 trCloseAllNotify).aq.logged = 1 ∧
    (sysRun cfg0 trCloseAllNotify).aq.running = true ∧
    (sysRun cfg0 trCloseAllNotify).aq.inFlight = none := by
  decide

/-- C6 amended: `closeAll()` empties the Active Set and the Serializer's
queue of not-yet-started tasks (leaving an in-flight task untouched) and
nulls the slot-position tracking; it leaves the Pending Queue untouched.
A subsequent `notify` does *not* behave as from a fresh state: because
`closeAll` nulls `nextInsertPos.x` and `calcInsertPos` restores only the `y`
coordinate, the next show task throws at `setPosition(null, y)` before the
push to the active set — no notification is placed at slot index 0, the
created window is leaked (never positioned, shown or tracked), no dismiss
timer is armed, and the task faults (wedging the serializer as in C2). -/
theorem close_all_state (st : SysState) (n : Notif)
    (hmax : 0 < st.config.maxVisibleNotifications) :
    (closeAll st).activeNotifications = [] ∧
    (closeAll st).aq.queue = [] ∧
    (closeAll st).aq.running = st.aq.running ∧
    (closeAll st).aq.inFlight = st.aq.inFlight ∧
    (closeAll st).nextInsertPosX = none ∧
    (closeAll st).nextInsertPosY = none ∧
    (closeAll st).notificationQueue = st.notificationQueue ∧
    (showNotification (closeAll st) n).2 = false ∧
    ((showNotification (closeAll st) n).1).activeNotifications = [] ∧
    ((showNotification (closeAll st) n).1).timers = st.timers ∧
    ((showNotification (closeAll st) n).1).windowsCreated = st.windowsCreated + 1 := by
  refine ⟨rfl, rfl, rfl, rfl, rfl, rfl, rfl, ?_, ?_, ?_, ?_⟩ <;>
    simp [showNotification, closeAll, hmax]

/-- C6 amended witness: after `closeAll` on the at-cap state `stCap`, the
next show task throws and places nothing in the active set. -/
theorem close_all_state_witness :
    0 < stCap.config.maxVisibleNotifications ∧
    (showNotification (closeAll stCap) n0).2 = false ∧
    ((showNotification (closeAll stCap) n0).1).activeNotifications = [] :=
  ⟨by decide, (close_all_state stCap n0 (by decide)).2.2.2.2.2.2.2.1,
   (close_all_state stCap n0 (by decide)).2.2.2.2.2.2.2.2.1⟩

/-- C7 counterexample: with `d0` (800-pixel-high work area), `setupConfig`
establishes the invariant (`totalHeight = 88`, cap `min 9 7 = 7`), but
`setConfig {height: 300}` re-derives `totalHeight = 310` while leaving
`maxVisibleNotifications = 7`, where the invariant demands
`floor(800 / 310) = 2` — so the invariant is *not* re-established after a
configuration update that affects slot size. -/
theorem config_invariant_counterexample :
    configInvariant d0 (setupConfig d0 cfg0) ∧
    ¬ configInvariant d0 (setConfig custom300 (setupConfig d0 cfg0)) := by
  constructor
  · unfold configInvariant
    decide
  · unfold configInvariant
    decide

/-- C7 amended: `setupConfig` establishes
`totalHeight = height + padding` and
`maxVisibleNotifications = min (floor(workAreaHeight / totalHeight)) 7`
(for positive slot height, where integer floor division models the JS
`Math.floor`); `setConfig` re-derives `totalHeight` (and the other geometry)
via `calcDimensions` but never recomputes `maxVisibleNotifications`, which
keeps its prior value. -/
theorem config_invariant_setup :
    (∀ (d : Display) (cfg : Config), 0 < cfg.height + cfg.padding →
      configInvariant d (setupConfig d cfg)) ∧
    (∀ (c : CustomConfig) (cfg : Config),
      (setConfig c cfg).totalHeight =
        (setConfig c cfg).height + (setConfig c cfg).padding ∧
      (setConfig c cfg).maxVisibleNotifications = cfg.maxVisibleNotifications) := by
  constructor
  · intro d cfg hpos
    simp only [configInvariant, setupConfig, calcDimensions]
    refine ⟨trivial, ?_⟩
    by_cases h7 : 7 < Int.fdiv d.workAreaHeight (cfg.height + cfg.padding)
    · rw [if_pos h7]
      have h : (7 : Nat) ≤ (Int.fdiv d.workAreaHeight (cfg.height + cfg.padding)).toNat := by
        omega
      rw [min_eq_right h]
    · rw [if_neg h7]
      have h : (Int.fdiv d.workAreaHeight (cfg.height + cfg.padding)).toNat ≤ 7 := by
        omega
      rw [min_eq_left h]
  · intro c cfg
    exact ⟨rfl, rfl⟩

/-- C7 amended witness: `cfg0` has positive slot height and `setupConfig`
establishes the invariant on `d0`. -/
theorem config_invariant_setup_witness :
    0 < cfg0.height + cfg0.padding ∧ configInvariant d0 (setupConfig d0 cfg0) :=
  ⟨by decide, config_invariant_setup.1 d0 cfg0 (by decide)⟩

/-- C8 counterexample: a payload that explicitly passes `displayTime: 0`
*has* its own duration present (namely 0), yet with the config default set to
100 the armed timer is 100, not 0 — the truthiness test on line 173 conflates
a present-but-zero duration with an absent one, so "set to the payload's own
duration when present" is false at this input. -/
theorem display_time_zero_counterexample :
    displayTimeClaimed nZero { cfg0 with displayTime := 100 } = 0 ∧
    displayTimeOf nZero { cfg0 with displayTime := 100 } = 100 ∧
    displayTimeOf nZero { cfg0 with displayTime := 100 } ≠
      displayTimeClaimed nZero { cfg0 with displayTime := 100 } := by
  decide

/-- C8 amended: the dismiss timer is set to the payload's own duration when
that duration is present *and truthy* (non-zero), else to the config default;
in particular a show task run under a configuration whose `displayTime` is
100, for a payload with no per-call duration, arms a 100 ms timer (reason
`"timeout"` fires when it elapses), not the original default.  (The scenario
hypothesis `nextInsertPos.x = some x` says the insert position is intact —
in the normal flow it always is; only `closeAll` nulls it, making the show
task throw before any timer is armed.) -/
theorem dismiss_timer_duration :
    (∀ (n : Notif) (cfg : Config), n.displayTime = none →
      displayTimeOf n cfg = cfg.displayTime) ∧
    (∀ (n : Notif) (cfg : Config) (d : Nat), n.displayTime = some d → d ≠ 0 →
      displayTimeOf n cfg = d) ∧
    (∀ (st : SysState) (n : Notif) (x : Int),
      st.config.displayTime = 100 → n.displayTime = none →
      st.activeNotifications.length < st.config.maxVisibleNotifications →
      st.nextInsertPosX = some x →
      ((showNotification st n).1).timers =
        st.timers ++ [(st.windowsCreated + 1, 100)]) := by
  refine ⟨?_, ?_, ?_⟩
  · intro n cfg h
    simp [displayTimeOf, h]
  · intro n cfg d h hd
    simp [displayTimeOf, h, hd]
  · intro st n x hcfg hn hlt hx
    simp [showNotification, hlt, hx, displayTimeOf, hn, hcfg]

/-- C8 amended witness: in `st100` (config default 100, insert position
intact) a show task for a payload without a duration arms a 100 ms timer. -/
theorem dismiss_timer_duration_witness :
    st100.config.displayTime = 100 ∧
    st100.nextInsertPosX = some 918 ∧
    ((showNotification st100 n0).1).timers =
      st100.timers ++ [(st100.windowsCreated + 1, 100)] :=
  ⟨by decide, by decide,
   dismiss_timer_duration.2.2 st100 n0 918 (by decide) (by decide) (by decide) (by decide)⟩

/-- C9: closing is stale-handle safe and idempotent — the close closure for a
window id that `BrowserWindow.fromId` no longer resolves changes nothing (no
callback fires, no error), closing the same window twice equals closing it
once (the first call destroys the window, so the second finds no handle) —
and one step of an in-flight reposition animation whose target window no
longer exists leaves the position unchanged. -/
theorem stale_handle_noop :
    (∀ (st : CloseState) (w nid : Nat) (ev : Option String) (ht : Bool),
      w ∉ st.live → closeNotification st w nid ev ht = st) ∧
    (∀ (st : CloseState) (w nid : Nat) (ev : Option String) (ht : Bool),
      st.live.Nodup →
      closeNotification (closeNotification st w nid ev ht) w nid ev ht =
        closeNotification st w nid ev ht) ∧
    (∀ (posY delta direction : Int) (timeDelta elapsed : ℚ) (curY : Int),
      animStepY false posY delta direction timeDelta elapsed curY = curY) := by
  refine ⟨?_, ?_, ?_⟩
  · exact fun st w nid ev ht h => closeNotification_not_live st w nid ev ht h
  · intro st w nid ev ht hnd
    by_cases hw : w ∈ st.live
    · have h2 : w ∉ (closeNotification st w nid ev ht).live := by
        rw [closeNotification_live, if_pos hw]
        exact hnd.not_mem_erase
      exact closeNotification_not_live _ w nid ev ht h2
    · have h1 : closeNotification st w nid ev ht = st :=
        closeNotification_not_live st w nid ev ht hw
      rw [h1]
      exact h1
  · intro posY delta direction timeDelta elapsed curY
    simp [animStepY]

/-- C9 witness: window 2 is not in the registry `cs0`, so closing it is a
no-op; the registry is duplicate-free, so closing window 1 twice equals
closing it once. -/
theorem stale_handle_noop_witness :
    ((2 : Nat) ∉ cs0.live ∧ closeNotification cs0 2 5 none false = cs0) ∧
    (cs0.live.Nodup ∧
      closeNotification (closeNotification cs0 1 5 none true) 1 5 none true =
        closeNotification cs0 1 5 none true) :=
  ⟨⟨by decide, stale_handle_noop.1 cs0 2 5 none false (by decide)⟩,
   ⟨by decide, stale_handle_noop.2.1 cs0 1 5 none true (by decide)⟩⟩

/-- C10: for any live window carrying a registered close callback, invoking
the close closure with no reason (or any falsy reason, such as the empty
string) delivers exactly one callback invocation whose `event` is
`"closedByAPI"` — the default substitution happens before the callback is
invoked. -/
theorem default_close_reason :
    ∀ (st : CloseState) (w nid : Nat) (ev : Option String) (ht : Bool),
      w ∈ st.live → w ∈ st.withCloseFunc → (ev = none ∨ ev = some "") →
      (closeNotification st w nid ev ht).fired =
        st.fired ++ [("closedByAPI", nid)] := by
  intro st w nid ev ht hw hcf hev
  have hevd : jsEventOrDefault ev = "closedByAPI" := by
    rcases hev with h | h <;> simp [jsEventOrDefault, h]
  simp only [closeNotification, if_pos hw, if_pos hcf]
  split <;> simp [hevd]

/-- C10 witness: closing live window 1 of `cs0` with no reason fires its
callback with `"closedByAPI"`. -/
theorem default_close_reason_witness :
    (closeNotification cs0 1 5 none false).fired = cs0.fired ++ [("closedByAPI", 5)] :=
  default_close_reason cs0 1 5 none false (by decide) (by decide) (Or.inl rfl)

/-- C2 amended witness: the wedged state reached by `push 0; push 1; fault`
stays wedged across a further `push 2; complete`. -/
theorem animation_queue_fault_stalls_witness :
    (aqRun [AQEvent.push 0, AQEvent.push 1, AQEvent.fault]).inFlight = none ∧
    ([AQEvent.push 2, AQEvent.complete].foldl aqStep
        (aqRun [AQEvent.push 0, AQEvent.push 1, AQEvent.fault])).started =
      (aqRun [AQEvent.push 0, AQEvent.push 1, AQEvent.fault]).started ∧
    ([AQEvent.push 2, AQEvent.complete].foldl aqStep
        (aqRun [AQEvent.push 0, AQEvent.push 1, AQEvent.fault])).running = true ∧
    ([AQEvent.push 2, AQEvent.complete].foldl aqStep
        (aqRun [AQEvent.push 0, AQEvent.push 1, AQEvent.fault])).inFlight = none :=
  ⟨by decide,
   animation_queue_fault_stalls.2 (aqRun [AQEvent.push 0, AQEvent.push 1, AQEvent.fault])
     [AQEvent.push 2, AQEvent.complete] (by decide) (by decide)⟩

end ENotify
